import Mathlib

/-!
Shallow embedding of the command pipeline execution core (`src/process.rs`)
of the `rust_cmd_lib` repository, together with theorems checking the
natural-language specification against it.

The OS is modelled by a read-only `World` record of functions (directory
tests, file-open success, spawn results, the builtin registry, the process
environment).  Mutable state threaded by the source (`current_dir` plus the
caller process working directory, which the source never touches) is the
`RunState` record.  Side effects (file opens, process spawns, builtin
invocations, waits) are recorded in an event trace.  Rust panics
(`unwrap` on empty vectors, indexing) are the `Outcome.panic` result.
-/

/-- Exit status of a child process: `exited code` for normal exit
(`success` iff code = 0), `signaled desc` for termination by a signal,
where `desc` stands for the Display rendering of the status. -/
inductive ExitStatus where
  | exited (code : Int)
  | signaled (desc : String)
deriving DecidableEq, Repr

/-- Rust `ExitStatus::success`: true iff the process exited with code 0. -/
def ExitStatus.success : ExitStatus → Bool
  | .exited code => code == 0
  | .signaled _ => false

/-- Model of an OS child process, characterised by what waiting on it
returns: `waitErr` is `some e` when the `wait` syscall itself fails,
`status` is the exit status otherwise, `out` the stdout bytes captured by
`wait_with_output`, and `stdinWriteOk` whether writing a buffer into the
child's piped stdin succeeds. -/
structure Child where
  waitErr : Option String
  status : ExitStatus
  out : List Nat
  stdinWriteOk : Bool
deriving DecidableEq, Repr

/-- The `ProcHandle` enum of the source: a spawned OS child (consumed once
waited, hence the `Option`), or the buffered stdout of a builtin stage. -/
inductive ProcHandle where
  | procChild (c : Option Child)
  | procBuf (b : Option (List Nat))
deriving DecidableEq, Repr

/-- The `Redirect` enum of the source. -/
inductive Redirect where
  | fileToStdin (path : String)
  | stdoutToStderr
  | stderrToStdout
  | stdoutToFile (path : String) (append : Bool)
  | stderrToFile (path : String) (append : Bool)
deriving DecidableEq, Repr

/-- A file handle produced by `Cmd::open_file`, identified by the path and
open mode.  `try_clone` of a handle is modelled as the handle itself. -/
structure OpenedFile where
  path : String
  readOnly : Bool
  append : Bool
deriving DecidableEq, Repr

/-- Configuration of one standard stream in the `std::process::Command`
spawn plan. -/
inductive StdioCfg where
  | inherit
  | piped
  | fromFile (f : OpenedFile)
  | fromChildStdout
deriving DecidableEq, Repr

/-- The spawn plan accumulated in a `std::process::Command` value:
program, arguments, environment assignments, the three stream
configurations and the optional working directory installed by
`Command::current_dir`. -/
structure SpawnPlan where
  prog : String
  args : List String
  envs : List (String × String)
  stdinCfg : StdioCfg
  stdoutCfg : StdioCfg
  stderrCfg : StdioCfg
  currentDir : Option String
deriving DecidableEq, Repr

/-- The `Cmd` struct of the source (one pipeline stage). `envs` models the
`HashMap` as an association list with unique keys (insertion updates in
place). -/
structure Cmd where
  in_cmd_map : Bool := true
  args : List String := []
  envs : List (String × String) := []
  redirects : List Redirect := []
  std_cmd : Option SpawnPlan := none
  stdin_redirect : Option OpenedFile := none
  stdout_redirect : Option OpenedFile := none
  stderr_redirect : Option OpenedFile := none
deriving DecidableEq, Repr

/-- Rust `str::split(sep)` on the character list of a string: the list of
chunks between occurrences of `sep` (an empty chunk between adjacent
separators and at the ends). -/
def splitOnChar (sep : Char) : List Char → List (List Char)
  | [] => [[]]
  | ch :: rest =>
    match splitOnChar sep rest with
    | [] => [[]]
    | chunk :: chunks =>
      if ch == sep then [] :: chunk :: chunks else (ch :: chunk) :: chunks

/-- HashMap insertion on the association-list model: overwrite the value
of an existing key, otherwise append the new binding. -/
def envsInsert (envs : List (String × String)) (k v : String) : List (String × String) :=
  if envs.any (fun p => p.1 == k) then
    envs.map (fun p => if p.1 == k then (k, v) else p)
  else
    envs ++ [(k, v)]

/-- `Cmd::add_arg`: while `args` is empty, a string splitting on `=` into
exactly two parts whose first part consists of ASCII alphanumerics or
underscores is recorded in `envs` and omitted from `args`; otherwise the
string is appended to `args`, and on the first appended argument
`in_cmd_map` is set from the builtin-registry membership `reg`. -/
def add_arg (reg : String → Bool) (c : Cmd) (arg : String) : Cmd :=
  if c.args.isEmpty then
    let v := splitOnChar '=' arg.data
    if v.length == 2 && (v.headD []).all (fun ch => ch.isAlphanum || ch == '_') then
      { c with envs := envsInsert c.envs (String.mk (v.headD [])) (String.mk (v.getD 1 [])) }
    else
      { c with in_cmd_map := reg arg, args := c.args ++ [arg] }
  else
    { c with args := c.args ++ [arg] }

/-- `Cmd::add_args`: fold `add_arg` over the list. -/
def add_args (reg : String → Bool) (c : Cmd) (xs : List String) : Cmd :=
  xs.foldl (add_arg reg) c

/-- `Cmd::arg0`: the first argument, or the empty string when none. -/
def arg0 (c : Cmd) : String :=
  c.args.headD ""

/-- The condition under which `add_arg` records a leading argument as an
environment assignment: exactly one `=` and every character of the (then
possibly empty) name ASCII alphanumeric or underscore. -/
def isEnvAssign (arg : String) : Bool :=
  let v := splitOnChar '=' arg.data
  v.length == 2 && (v.headD []).all (fun ch => ch.isAlphanum || ch == '_')

/-- A function registered in the builtin map (`FnFun`): from the stage's
arguments, environment assignments, current directory and stdin buffer to
either an error or the produced stdout and stderr buffers. -/
def BuiltinFn : Type :=
  List String → List (String × String) → String → List Nat → Except String (List Nat × List Nat)

/-- The read-only model of the operating system and process environment:
filesystem predicates used by `cd` and `open_file`, the contents read from
a stdin-redirect file, write success per path, the result of spawning a
plan, the builtin registry `CMD_MAP`, the process environment variables,
and whether writing a buffer to the caller's stdout succeeds. -/
structure World where
  isDir : String → Bool
  canExec : String → Bool
  canOpen : String → Bool
  readFile : String → List Nat
  writeOk : String → Bool
  spawnRes : SpawnPlan → Except String Child
  cmdMap : String → Option BuiltinFn
  env : String → Option String
  stdoutWriteErr : Option String

/-- The mutable state threaded through a group run: the group's
`current_dir` cell, and the working directory of the caller process itself
(which the source never modifies — it has no call that could). -/
structure RunState where
  current_dir : String
  processCwd : String
deriving DecidableEq, Repr

/-- One observable side effect of a run, in order of occurrence: a file
open attempt, an OS process spawn attempt, a builtin callback invocation,
a `cd` updating the group directory, a wait on a child, or a write of
buffered bytes to the caller's stdout. -/
inductive Event where
  | openEv (path : String) (readOnly append : Bool)
  | spawnEv (plan : SpawnPlan)
  | builtinEv (args : List String)
  | cdEv (dir : String)
  | waitEv (c : Child)
  | stdoutEv (bytes : List Nat)
deriving DecidableEq, Repr

/-- `std::env::var("CMD_LIB_PIPEFAIL") != Ok("0")`: pipefail is enabled
unless the variable is set to exactly "0" (default enabled). -/
def pipefail (w : World) : Bool :=
  w.env "CMD_LIB_PIPEFAIL" != some "0"

/-- Result of an embedded computation: a value, an error
(`std::io::Error`, modelled by its message), or a Rust panic. -/
inductive Outcome (α : Type) where
  | ok (a : α)
  | err (e : String)
  | panic
deriving DecidableEq, Repr

/-- Convert an `Except` result into an `Outcome`. -/
def outcomeOf : Except String α → Outcome α
  | .ok a => .ok a
  | .error e => .err e

/-- Whether an `Outcome` is an error. -/
def Outcome.isErr : Outcome α → Bool
  | .err _ => true
  | _ => false

/-- Whether an `Except` result is an error. -/
def exceptIsErr : Except String α → Bool
  | .error _ => true
  | .ok _ => false

/-- Rust `Debug` rendering of a `String` (no escaping needed for the
arguments used here): the string between double quotes. -/
def rustDebugStr (s : String) : String :=
  "\"" ++ s ++ "\""

/-- Rust `Debug` rendering of a `Vec<String>`. -/
def rustDebugArgs (xs : List String) : String :=
  "[" ++ String.intercalate ", " (xs.map rustDebugStr) ++ "]"

/-- Rust `Debug` rendering of the `HashMap<String, String>` of environment
assignments, in the iteration order of the association-list model. -/
def rustDebugEnvs (envs : List (String × String)) : String :=
  "\x7b" ++ String.intercalate ", " (envs.map fun p => rustDebugStr p.1 ++ ": " ++ rustDebugStr p.2) ++ "\x7d"

/-- The `Debug` rendering of a `Redirect` from the source. -/
def redirectDebug : Redirect → String
  | .fileToStdin path => "< " ++ path
  | .stdoutToStderr => ">&2"
  | .stderrToStdout => "2>&1"
  | .stdoutToFile path append => (if append then "1>> " else "1> ") ++ path
  | .stderrToFile path append => (if append then "2>> " else "2> ") ++ path

/-- Rust `Debug` rendering of a `Vec<Redirect>`. -/
def rustDebugRedirects (rs : List Redirect) : String :=
  "[" ++ String.intercalate ", " (rs.map redirectDebug) ++ "]"

/-- `Cmd::debug_str`: the argv rendering, followed when non-empty by the
parenthesised envs and/or redirects renderings. -/
def debug_str (c : Cmd) : String :=
  let ret := rustDebugArgs c.args
  let extra := if c.envs.isEmpty then "" else rustDebugEnvs c.envs
  let extra :=
    if c.redirects.isEmpty then extra
    else (if extra.isEmpty then extra else extra ++ ", ") ++ rustDebugRedirects c.redirects
  if extra.isEmpty then ret else ret ++ "(" ++ extra ++ ")"

/-- `Cmd::gen_command` (run by `Cmds::pipe`): a builtin stage is left
unchanged; an external stage gets a spawn plan with program `args[0]`,
arguments `args[1..]`, the stage's envs, stdout and stderr piped and stdin
inherited by default. -/
def gen_command (c : Cmd) : Cmd :=
  if c.in_cmd_map then c
  else
    { c with
      std_cmd := some
        { prog := c.args.headD ""
          args := c.args.tail
          envs := c.envs
          stdinCfg := .inherit
          stdoutCfg := .piped
          stderrCfg := .piped
          currentDir := none } }

/-- `Cmd::open_file`: open `path` read-only, or create/write with
truncation iff not appending; success is governed by the world. -/
def open_file (w : World) (path : String) (readOnly append : Bool) : Except String OpenedFile :=
  if w.canOpen path then .ok ⟨path, readOnly, append⟩
  else .error ("open " ++ path ++ " failed")

/-- State carried by the redirect planner walk: the current stdout and
stderr target paths (initially `/dev/stdout` and `/dev/stderr`) and the
stage being updated. -/
structure RedirState where
  stdoutFile : String
  stderrFile : String
  c : Cmd

/-- Update the spawn plan of a stage, when present, with a stream
configuration. -/
def planStdin (c : Cmd) (f : OpenedFile) : Cmd :=
  { c with std_cmd := c.std_cmd.map fun p => { p with stdinCfg := .fromFile f } }

/-- Update the spawn plan's stdout configuration, when a plan is present. -/
def planStdout (c : Cmd) (f : OpenedFile) : Cmd :=
  { c with std_cmd := c.std_cmd.map fun p => { p with stdoutCfg := .fromFile f } }

/-- Update the spawn plan's stderr configuration, when a plan is present. -/
def planStderr (c : Cmd) (f : OpenedFile) : Cmd :=
  { c with std_cmd := c.std_cmd.map fun p => { p with stderrCfg := .fromFile f } }

/-- One iteration of the `Cmd::setup_redirects` loop, resolving a single
directive against the current redirect state.  `StdoutToStderr` duplicates
the stage's current stderr redirect file when one is set, and otherwise
opens the current stderr target path in append mode; `StderrToStdout` is
symmetric.  The file redirects record their path as the new current
target. -/
def redirect_step (w : World) (s : RedirState) : Redirect → Except String RedirState × List Event
  | .fileToStdin path =>
    (match open_file w path true false with
     | .error e => (.error e, [.openEv path true false])
     | .ok f =>
       (.ok { s with c := { planStdin s.c f with stdin_redirect := some f } },
        [.openEv path true false]))
  | .stdoutToStderr =>
    (match s.c.stderr_redirect with
     | some f =>
       (.ok { s with c := { planStdout s.c f with stdout_redirect := some f } }, [])
     | none =>
       match open_file w s.stderrFile false true with
       | .error e => (.error e, [.openEv s.stderrFile false true])
       | .ok f =>
         (.ok { s with c := { planStdout s.c f with stdout_redirect := some f } },
          [.openEv s.stderrFile false true]))
  | .stderrToStdout =>
    (match s.c.stdout_redirect with
     | some f =>
       (.ok { s with c := { planStderr s.c f with stderr_redirect := some f } }, [])
     | none =>
       match open_file w s.stdoutFile false true with
       | .error e => (.error e, [.openEv s.stdoutFile false true])
       | .ok f =>
         (.ok { s with c := { planStderr s.c f with stderr_redirect := some f } },
          [.openEv s.stdoutFile false true]))
  | .stdoutToFile path append =>
    (match open_file w path false append with
     | .error e => (.error e, [.openEv path false append])
     | .ok f =>
       (.ok { s with stdoutFile := path,
                     c := { planStdout s.c f with stdout_redirect := some f } },
        [.openEv path false append]))
  | .stderrToFile path append =>
    (match open_file w path false append with
     | .error e => (.error e, [.openEv path false append])
     | .ok f =>
       (.ok { s with stderrFile := path,
                     c := { planStderr s.c f with stderr_redirect := some f } },
        [.openEv path false append]))

/-- The `Cmd::setup_redirects` loop over the list of directives, stopping
at the first failing open. -/
def setup_redirects_loop (w : World) (s : RedirState) : List Redirect → Except String Cmd × List Event
  | [] => (.ok s.c, [])
  | r :: rest =>
    match redirect_step w s r with
    | (.error e, evs) => (.error e, evs)
    | (.ok s', evs) =>
      let (res, evs2) := setup_redirects_loop w s' rest
      (res, evs ++ evs2)

/-- `Cmd::setup_redirects`: walk the stage's directives left to right,
starting from the `/dev/stdout` and `/dev/stderr` targets. -/
def setup_redirects (w : World) (c : Cmd) : Except String Cmd × List Event :=
  setup_redirects_loop w ⟨"/dev/stdout", "/dev/stderr", c⟩ c.redirects

/-- `Cmd::run_cd_cmd`: requires exactly one operand (the source is only
invoked with `args[0] = "cd"`, so `args` is non-empty), an existing
directory, and execute permission; returns the new group directory. -/
def run_cd_cmd (w : World) (c : Cmd) : Except String String :=
  if c.args.length == 1 then .error "cd: missing directory"
  else if c.args.length > 2 then .error ("cd: too many arguments: " ++ debug_str c)
  else if !(w.isDir (c.args.getD 1 "")) then
    .error ("cd: " ++ c.args.getD 1 "" ++ ": No such file or directory")
  else if !(w.canExec (c.args.getD 1 "")) then
    .error ("cd " ++ c.args.getD 1 "" ++ ": Permission denied")
  else .ok (c.args.getD 1 "")

/-- `WaitCmd::status_to_io_error`: render the error message carried by a
non-success exit status. -/
def status_to_io_error (status : ExitStatus) (command : String) : String :=
  match status with
  | .exited code => command ++ "; status code: " ++ toString code
  | .signaled desc => command ++ "; terminated by " ++ desc

/-- The `WaitCmd::wait_children` loop, taking the handle list in pop order
(last stage first, i.e. the reverse of the stored vector).  Each child
still present is waited; a wait error propagates immediately, and a
non-zero exit is fatal when pipefail is enabled.  The events record the
children actually waited. -/
def wait_children_rev (w : World) : List (ProcHandle × String) → Except String Unit × List Event
  | [] => (.ok (), [])
  | (h, cmd) :: rest =>
    match h with
    | .procChild (some c) =>
      (match c.waitErr with
       | some e => (.error e, [.waitEv c])
       | none =>
         if !c.status.success && pipefail w then
           (.error (status_to_io_error c.status (cmd ++ " exited with error")), [.waitEv c])
         else
           let (r, evs) := wait_children_rev w rest
           (r, .waitEv c :: evs))
    | _ => wait_children_rev w rest

/-- `WaitCmd::wait_result_nolog`: pop the last stage's handle (a panic
when the waiter holds no handles); wait it, treating any non-zero exit as
fatal; or write a buffered output to the caller's stdout; in every error
case drain the remaining stages best-effort, otherwise return the drain's
result. -/
def waitCmd_wait_result_nolog (w : World) (hs : List (ProcHandle × String)) :
    Outcome Unit × List Event :=
  match hs.reverse with
  | [] => (.panic, [])
  | (h, cmd) :: rest =>
    match h with
    | .procChild (some c) =>
      (match c.waitErr with
       | some e =>
         let (_, evs) := wait_children_rev w rest
         (.err e, .waitEv c :: evs)
       | none =>
         if !c.status.success then
           let (_, evs) := wait_children_rev w rest
           (.err (status_to_io_error c.status (cmd ++ " exited with error")), .waitEv c :: evs)
         else
           let (r, evs) := wait_children_rev w rest
           (outcomeOf r, .waitEv c :: evs))
    | .procChild none =>
      let (r, evs) := wait_children_rev w rest
      (outcomeOf r, evs)
    | .procBuf (some s) =>
      (match w.stdoutWriteErr with
       | some e =>
         let (_, evs) := wait_children_rev w rest
         (.err e, .stdoutEv s :: evs)
       | none =>
         let (r, evs) := wait_children_rev w rest
         (outcomeOf r, .stdoutEv s :: evs))
    | .procBuf none =>
      let (r, evs) := wait_children_rev w rest
      (outcomeOf r, evs)

/-- `WaitFun::wait_output` on one handle: wait a still-present child with
output capture (its non-zero exit or wait failure is an error, otherwise
its stdout bytes are returned), take a still-present buffer, and return
empty bytes for an already-consumed handle.  Also returns the handle in
its consumed state and the wait events. -/
def wait_output (h : ProcHandle × String) :
    Except String (List Nat) × (ProcHandle × String) × List Event :=
  match h with
  | (.procChild (some c), cmd) =>
    (match c.waitErr with
     | some e => (.error e, (.procChild none, cmd), [.waitEv c])
     | none =>
       if !c.status.success then
         (.error (status_to_io_error c.status (cmd ++ " exited with error")),
          (.procChild none, cmd), [.waitEv c])
       else (.ok c.out, (.procChild none, cmd), [.waitEv c]))
  | (.procChild none, cmd) => (.ok [], (.procChild none, cmd), [])
  | (.procBuf (some s), cmd) => (.ok s, (.procBuf none, cmd), [])
  | (.procBuf none, cmd) => (.ok [], (.procBuf none, cmd), [])

/-- The Unicode replacement character U+FFFD. -/
def replChar : Char :=
  Char.ofNat 0xFFFD

/-- In-progress multi-byte UTF-8 sequence: accumulated code point bits,
the number of continuation bytes still expected, and the admissible range
of the next byte (which excludes overlong forms and surrogates). -/
structure Utf8State where
  acc : Nat
  need : Nat
  lo : Nat
  hi : Nat
deriving DecidableEq, Repr

/-- Classification of a byte in lead position: an ASCII character, the
start of a well-formed multi-byte sequence, or invalid. -/
inductive Utf8Lead where
  | ascii (c : Char)
  | start (s : Utf8State)
  | invalid

/-- Dispatch on a lead byte, per the UTF-8 well-formedness table. -/
def utf8Lead (b : Nat) : Utf8Lead :=
  if b ≤ 0x7F then .ascii (Char.ofNat b)
  else if 0xC2 ≤ b && b ≤ 0xDF then .start ⟨b - 0xC0, 1, 0x80, 0xBF⟩
  else if b == 0xE0 then .start ⟨0, 2, 0xA0, 0xBF⟩
  else if b == 0xED then .start ⟨0xD, 2, 0x80, 0x9F⟩
  else if 0xE1 ≤ b && b ≤ 0xEF then .start ⟨b - 0xE0, 2, 0x80, 0xBF⟩
  else if b == 0xF0 then .start ⟨0, 3, 0x90, 0xBF⟩
  else if b == 0xF4 then .start ⟨4, 3, 0x80, 0x8F⟩
  else if 0xF1 ≤ b && b ≤ 0xF3 then .start ⟨b - 0xF0, 3, 0x80, 0xBF⟩
  else .invalid

/-- Byte-by-byte lossy UTF-8 decoding with the pending sequence as state:
a byte outside the admissible continuation range ends the current maximal
invalid subpart with one U+FFFD and is reconsidered as a lead byte. -/
def utf8LossyAux : Option Utf8State → List Nat → List Char
  | none, [] => []
  | some _, [] => [replChar]
  | none, b :: rest =>
    (match utf8Lead b with
     | .ascii c => c :: utf8LossyAux none rest
     | .start s => utf8LossyAux (some s) rest
     | .invalid => replChar :: utf8LossyAux none rest)
  | some s, b :: rest =>
    if s.lo ≤ b && b ≤ s.hi then
      (if s.need == 1 then
        Char.ofNat (s.acc * 0x40 + (b - 0x80)) :: utf8LossyAux none rest
       else
        utf8LossyAux (some ⟨s.acc * 0x40 + (b - 0x80), s.need - 1, 0x80, 0xBF⟩) rest)
    else
      replChar ::
        (match utf8Lead b with
         | .ascii c => c :: utf8LossyAux none rest
         | .start s' => utf8LossyAux (some s') rest
         | .invalid => replChar :: utf8LossyAux none rest)

/-- Model of Rust `String::from_utf8_lossy`: decode well-formed UTF-8
sequences and replace each maximal invalid subpart with U+FFFD. -/
def utf8Lossy (bs : List Nat) : List Char :=
  utf8LossyAux none bs

/-- The trailing-newline trim of `WaitFun::wait_result_nolog`: when the
string ends with a newline character, remove exactly that one character. -/
def trimTrailingNewline (s : String) : String :=
  if s.data.getLast? == some '\n' then String.mk s.data.dropLast else s

/-- `WaitFun::wait_result_nolog`: pop the last handle (a panic when there
is none), capture its output, on error drain the rest best-effort and
return the error; on success decode the bytes lossily, trim one trailing
newline, drain the rest and return the drain's error if any, else the
string. -/
def waitFun_wait_result_nolog (w : World) (hs : List (ProcHandle × String)) :
    Outcome String × List Event :=
  match hs.reverse with
  | [] => (.panic, [])
  | h :: rest =>
    let (r, _, evs) := wait_output h
    match r with
    | .error e =>
      let (_, evs2) := wait_children_rev w rest
      (.err e, evs ++ evs2)
    | .ok output =>
      let ret := trimTrailingNewline (String.mk (utf8Lossy output))
      let (r2, evs2) := wait_children_rev w rest
      match r2 with
      | .error e => (.err e, evs ++ evs2)
      | .ok _ => (.ok ret, evs ++ evs2)


/-- Result of spawning one stage: the outcome (the new stage handle with
its debug string), the updated run state, the previous stage's handle in
its possibly-consumed state, and the events of this step. -/
structure StageRes where
  res : Outcome (ProcHandle × String)
  st : RunState
  prevAfter : Option (ProcHandle × String)
  events : List Event

/-- Stdin acquisition of a builtin stage (the first half of the builtin
arm of `Cmd::spawn`): the first stage reads its stdin redirect file
(empty buffer without one); a later stage drains the previous stage's
handle with output capture, consuming it (a panic when the executor
passed no previous handle). -/
def builtin_stdin (w : World) (c : Cmd) (is_first : Bool)
    (prev : Option (ProcHandle × String)) :
    Outcome (List Nat) × Option (ProcHandle × String) × List Event :=
  if is_first then
    match c.stdin_redirect with
    | some f => (.ok (w.readFile f.path), prev, [])
    | none => (.ok [], prev, [])
  else
    match prev with
    | none => (.panic, none, [])
    | some ph =>
      let (r, ph', evs) := wait_output ph
      (outcomeOf r, some ph', evs)

/-- `Cmd::spawn` for one stage.  A `cd` stage updates the group directory
and yields `ProcBuf(None)`.  A builtin stage fills its input buffer via
`builtin_stdin`, invokes the registered callback (a panic if the registry
no longer holds the name), writes the error buffer to the stderr redirect
when present, and yields `ProcBuf(None)` when a stdout redirect consumes
the output, else `ProcBuf(Some(outbuf))`.  An external stage installs the
non-empty group directory on its plan, wires stdin from the previous
child's stdout (else a pipe) when not first, inherits the caller's stdout
when last without capture or redirect, spawns, and writes a previous
buffered output into the child's stdin. -/
def cmd_spawn (w : World) (c : Cmd) (st : RunState) (with_output is_first is_last : Bool)
    (prev : Option (ProcHandle × String)) : StageRes :=
  if arg0 c == "cd" then
    match run_cd_cmd w c with
    | .error e => ⟨.err e, st, prev, []⟩
    | .ok dir =>
      ⟨.ok (.procBuf none, debug_str c), { st with current_dir := dir }, prev, [.cdEv dir]⟩
  else if c.in_cmd_map then
    match builtin_stdin w c is_first prev with
    | (.panic, pA, evs) => ⟨.panic, st, pA, evs⟩
    | (.err e, pA, evs) => ⟨.err e, st, pA, evs⟩
    | (.ok inbuf, pA, evs) =>
      match w.cmdMap (arg0 c) with
      | none => ⟨.panic, st, pA, evs⟩
      | some f =>
        match f c.args c.envs st.current_dir inbuf with
        | .error e => ⟨.err e, st, pA, evs ++ [.builtinEv c.args]⟩
        | .ok (outbuf, _errbuf) =>
          let errFail : Option String :=
            match c.stderr_redirect with
            | some fe => if w.writeOk fe.path then none else some ("write " ++ fe.path ++ " failed")
            | none => none
          match errFail with
          | some e => ⟨.err e, st, pA, evs ++ [.builtinEv c.args]⟩
          | none =>
            match c.stdout_redirect with
            | some fo =>
              if w.writeOk fo.path then
                ⟨.ok (.procBuf none, debug_str c), st, pA, evs ++ [.builtinEv c.args]⟩
              else
                ⟨.err ("write " ++ fo.path ++ " failed"), st, pA, evs ++ [.builtinEv c.args]⟩
            | none =>
              ⟨.ok (.procBuf (some outbuf), debug_str c), st, pA, evs ++ [.builtinEv c.args]⟩
  else
    match c.std_cmd with
    | none => ⟨.panic, st, prev, []⟩
    | some plan0 =>
      let plan1 :=
        if st.current_dir != "" then { plan0 with currentDir := some st.current_dir } else plan0
      let plan2 :=
        if !is_first then
          match prev with
          | some (.procChild (some _), _) => { plan1 with stdinCfg := .fromChildStdout }
          | _ => { plan1 with stdinCfg := .piped }
        else plan1
      let plan3 :=
        if is_last && !with_output && c.stdout_redirect.isNone then
          { plan2 with stdoutCfg := .inherit }
        else plan2
      match w.spawnRes plan3 with
      | .error e => ⟨.err e, st, prev, [.spawnEv plan3]⟩
      | .ok child =>
        if !is_first then
          match prev with
          | none => ⟨.panic, st, none, [.spawnEv plan3]⟩
          | some (.procBuf (some _s), pc) =>
            if child.stdinWriteOk then
              ⟨.ok (.procChild (some child), debug_str c), st, some (.procBuf none, pc),
               [.spawnEv plan3]⟩
            else
              ⟨.err ("write to stdin of " ++ plan3.prog ++ " failed"), st,
               some (.procBuf none, pc), [.spawnEv plan3]⟩
          | some ph => ⟨.ok (.procChild (some child), debug_str c), st, some ph, [.spawnEv plan3]⟩
        else ⟨.ok (.procChild (some child), debug_str c), st, prev, [.spawnEv plan3]⟩

/-- The stage-walking loop of `Cmds::spawn`: spawn each stage in order,
pass it the handle of the previous stage (the last element of the
accumulated list), and write that handle back in its possibly-consumed
state before pushing the new one. -/
def spawn_loop (w : World) (wo : Bool) :
    List Cmd → RunState → Bool → List (ProcHandle × String) →
    Outcome (List (ProcHandle × String)) × RunState × List Event
  | [], st, _, children => (.ok children, st, [])
  | c :: rest, st, isFirst, children =>
    let r := cmd_spawn w c st wo isFirst rest.isEmpty children.getLast?
    let children' :=
      match r.prevAfter with
      | none => children
      | some ph => children.dropLast ++ [ph]
    match r.res with
    | .panic => (.panic, r.st, r.events)
    | .err e => (.err e, r.st, r.events)
    | .ok h =>
      let (res, st', evs) := spawn_loop w wo rest r.st false (children' ++ [h])
      (res, st', r.events ++ evs)

/-- The redirect-setup phase of `Cmds::spawn`: run every stage's redirect
planner in order, stopping at the first error. -/
def setup_all (w : World) : List Cmd → Except String (List Cmd) × List Event
  | [] => (.ok [], [])
  | c :: rest =>
    match setup_redirects w c with
    | (.error e, evs) => (.error e, evs)
    | (.ok c', evs) =>
      match setup_all w rest with
      | (.error e, evs2) => (.error e, evs ++ evs2)
      | (.ok cs', evs2) => (.ok (c' :: cs'), evs ++ evs2)

/-- `Cmds::spawn`: set up every stage's redirects, then spawn the stages
left to right; the waiter's handle list is the result. -/
def cmds_spawn (w : World) (cs : List Cmd) (st : RunState) (wo : Bool) :
    Outcome (List (ProcHandle × String)) × RunState × List Event :=
  match setup_all w cs with
  | (.error e, evs) => (.err e, st, evs)
  | (.ok cs', evs) =>
    let (r, st', evs2) := spawn_loop w wo cs' st true []
    (r, st', evs ++ evs2)

/-- The pipeline list of the `Cmds` struct (stages already passed through
`gen_command` by `pipe`). -/
structure Cmds where
  cmds : List Cmd := []
deriving DecidableEq, Repr

/-- `Cmds::pipe`: push a stage after generating its spawn plan. -/
def Cmds.pipe (cs : Cmds) (c : Cmd) : Cmds :=
  { cmds := cs.cmds ++ [gen_command c] }

/-- `Cmds::run_cmd`: spawn without output capture and wait for status. -/
def cmds_runCmd (w : World) (cs : Cmds) (st : RunState) :
    Outcome Unit × RunState × List Event :=
  match cmds_spawn w cs.cmds st false with
  | (.panic, st', evs) => (.panic, st', evs)
  | (.err e, st', evs) => (.err e, st', evs)
  | (.ok hs, st', evs) =>
    let (r, evs2) := waitCmd_wait_result_nolog w hs
    (r, st', evs ++ evs2)

/-- `Cmds::run_fun`: spawn with output capture and wait for the trimmed
string result. -/
def cmds_run_fun (w : World) (cs : Cmds) (st : RunState) :
    Outcome String × RunState × List Event :=
  match cmds_spawn w cs.cmds st true with
  | (.panic, st', evs) => (.panic, st', evs)
  | (.err e, st', evs) => (.err e, st', evs)
  | (.ok hs, st', evs) =>
    let (r, evs2) := waitFun_wait_result_nolog w hs
    (r, st', evs ++ evs2)

/-- `GroupCmds::run_cmd`: run each `(pipeline, fallback?)` pair in order;
on a pipeline error run the fallback when present — its error replaces the
original and its success lets the group continue — and return the error
immediately when absent. -/
def group_runCmd (w : World) :
    List (Cmds × Option Cmds) → RunState → Outcome Unit × RunState × List Event
  | [], st => (.ok (), st, [])
  | (c, orC) :: rest, st =>
    match cmds_runCmd w c st with
    | (.panic, st', evs) => (.panic, st', evs)
    | (.ok _, st', evs) =>
      let (r, st'', evs2) := group_runCmd w rest st'
      (r, st'', evs ++ evs2)
    | (.err e, st', evs) =>
      match orC with
      | none => (.err e, st', evs)
      | some oc =>
        match cmds_runCmd w oc st' with
        | (.panic, st'', evs2) => (.panic, st'', evs ++ evs2)
        | (.err e2, st'', evs2) => (.err e2, st'', evs ++ evs2)
        | (.ok _, st'', evs2) =>
          let (r, st3, evs3) := group_runCmd w rest st''
          (r, st3, evs ++ evs2 ++ evs3)

/-- `GroupCmds::run_fun`: pop the last pair (a panic when the group is
empty), run the earlier pairs for status, then run the last pipeline for
output with the same fallback semantics (the fallback's result, error or
not, replaces the original error). -/
def group_run_fun (w : World) (g : List (Cmds × Option Cmds)) (st : RunState) :
    Outcome String × RunState × List Event :=
  match g.getLast? with
  | none => (.panic, st, [])
  | some lastPair =>
    match group_runCmd w g.dropLast st with
    | (.panic, st', evs) => (.panic, st', evs)
    | (.err e, st', evs) => (.err e, st', evs)
    | (.ok _, st', evs) =>
      match cmds_run_fun w lastPair.1 st' with
      | (.ok s, st'', evs2) => (.ok s, st'', evs ++ evs2)
      | (.panic, st'', evs2) => (.panic, st'', evs ++ evs2)
      | (.err e, st'', evs2) =>
        match lastPair.2 with
        | some oc =>
          let (r2, st3, evs3) := cmds_run_fun w oc st''
          (r2, st3, evs ++ evs2 ++ evs3)
        | none => (.err e, st'', evs ++ evs2)

/-- A stage handle whose wait (if any) does not fail at the OS level. -/
def cleanHandle : ProcHandle → Bool
  | .procChild (some c) => c.waitErr.isNone
  | _ => true

/-- Whether a stage handle carries a non-success exit status: only a
still-present child that did not exit zero. -/
def handleFails : ProcHandle → Bool
  | .procChild (some c) => !c.status.success
  | _ => false

/-- A handle the `wait_children` drain passes over without aborting: any
non-child handle, and a child whose wait succeeds with either a zero exit
or pipefail disabled. -/
def drainOk (w : World) (p : ProcHandle × String) : Prop :=
  ∀ c, p.1 = ProcHandle.procChild (some c) →
    c.waitErr = none ∧ (c.status.success = true ∨ pipefail w = false)

/-- Whether an event is a redirect-file open attempt. -/
def isOpenEv : Event → Bool
  | .openEv _ _ _ => true
  | _ => false

/-- Whether an event is the execution of a stage: an OS spawn attempt, a
builtin invocation, or a `cd`. -/
def isStageEv : Event → Bool
  | .spawnEv _ => true
  | .builtinEv _ => true
  | .cdEv _ => true
  | _ => false

/-- The always-succeeding builtin callback registered under the empty
name (`builtin_true`). -/
def builtin_true : BuiltinFn :=
  fun _ _ _ _ => .ok ([], [])

/-- A small concrete world used by the witnesses: `/tmp` is an executable
directory, the path "bad" cannot be opened, spawning "false" yields a
child exiting 1, any other program a child exiting 0 whose captured
stdout is the bytes of "rust\n", and only the empty builtin name is
registered.  `CMD_LIB_PIPEFAIL` is unset, so pipefail is enabled. -/
def wDemo : World :=
  { isDir := fun d => d == "/tmp"
    canExec := fun d => d == "/tmp"
    canOpen := fun p => p != "bad"
    readFile := fun _ => []
    writeOk := fun _ => true
    spawnRes := fun p =>
      if p.prog == "false" then .ok ⟨none, .exited 1, [], true⟩
      else .ok ⟨none, .exited 0, [0x72, 0x75, 0x73, 0x74, 0x0A], true⟩
    cmdMap := fun s => if s == "" then some builtin_true else none
    env := fun _ => none
    stdoutWriteErr := none }

/-- The registry-membership test corresponding to `wDemo`. -/
def regDemo : String → Bool :=
  fun s => (wDemo.cmdMap s).isSome

/-- Initial run state of the demo group: empty `current_dir`, the caller
process sitting in `/home/u`. -/
def stDemo : RunState :=
  ⟨"", "/home/u"⟩

/-- A one-stage pipeline running the external command "false". -/
def cmdsFalse : Cmds :=
  Cmds.pipe {} (add_arg regDemo {} "false")

/-- A one-stage pipeline running the empty-name builtin (a no-op that
succeeds). -/
def cmdsTrue : Cmds :=
  Cmds.pipe {} {}

/-- A one-stage pipeline running the external command `echo rust`. -/
def cmdsEcho : Cmds :=
  Cmds.pipe {} (add_args regDemo {} ["echo", "rust"])

/-- A successful child used in waiter witnesses, with stdout bytes
"ok\n". -/
def childOk : Child :=
  ⟨none, .exited 0, [0x6F, 0x6B, 0x0A], true⟩

/-- A child that exited with status code 1. -/
def childFail : Child :=
  ⟨none, .exited 1, [], true⟩

/-- A second successful child, distinguishable from `childOk` by its
output bytes. -/
def childOk2 : Child :=
  ⟨none, .exited 0, [0x32], true⟩

/-- The three-stage handle list of the drain counterexample: first and
third stages exited zero, the middle stage exited 1. -/
def hsDrain : List (ProcHandle × String) :=
  [(.procChild (some childOk), "a"), (.procChild (some childFail), "b"),
   (.procChild (some childOk2), "c")]

/-- A `cd /tmp` stage. -/
def cmdCd : Cmd :=
  add_args regDemo {} ["cd", "/tmp"]

/-- A builtin stage (empty name) whose stdout is redirected to the file
"o": its output is flushed there and its handle carries no bytes. -/
def cmdBuiltinRedir : Cmd :=
  { stdout_redirect := some ⟨"o", false, false⟩ }

/-- Redirect state after installing `f` as the stage's stdout redirect
(and on the spawn plan when one is present). -/
def withStdoutRedirect (s : RedirState) (f : OpenedFile) : RedirState :=
  { s with c := { planStdout s.c f with stdout_redirect := some f } }

/-- Redirect state after installing `f` as the stage's stderr redirect
(and on the spawn plan when one is present). -/
def withStderrRedirect (s : RedirState) (f : OpenedFile) : RedirState :=
  { s with c := { planStderr s.c f with stderr_redirect := some f } }

/-- The external stage "false" after `gen_command`. -/
def cmdFalseStage : Cmd :=
  gen_command (add_arg regDemo {} "false")

/-- The spawn plan generated for the "false" stage. -/
def planFalse : SpawnPlan :=
  ⟨"false", [], [], .inherit, .piped, .piped, none⟩

/-- The spawn plan of the "false" stage as executed alone for status: the
last stage without capture or redirect inherits the caller's stdout. -/
def planFalseRun : SpawnPlan :=
  ⟨"false", [], [], .inherit, .inherit, .piped, none⟩

/-- The events of running the `false` pipeline for status. -/
def evsFalse : List Event :=
  [.spawnEv planFalseRun, .waitEv childFail]

/-- The error of the `false` pipeline. -/
def errFalse : String :=
  "[\"false\"] exited with error; status code: 1"

/-- The events of running the empty-builtin pipeline for status: the
callback runs and its (empty) buffered output is written to the caller's
stdout. -/
def evsTrue : List Event :=
  [.builtinEv [], .stdoutEv []]

/-- A stage whose stdin redirect names the unopenable path "bad". -/
def cmdBadRedir : Cmd :=
  { redirects := [.fileToStdin "bad"] }

/-- The NAME part `v[0]` of an argument split on `=`. -/
def envName (arg : String) : String :=
  String.mk ((splitOnChar '=' arg.data).headD [])

/-- The VALUE part `v[1]` of an argument split on `=`. -/
def envVal (arg : String) : String :=
  String.mk ((splitOnChar '=' arg.data).getD 1 [])

/-- C3 counterexample: the argument "=1", whose NAME part is empty (so by
the claim it should be appended as a literal first argument), is in fact
recorded by `add_arg` as an environment assignment with empty name and is
omitted from argv — `v[0].chars().all(...)` is vacuously true on the
empty name. -/
theorem add_arg_empty_name_counterexample :
    (add_arg (fun _ => false) {} "=1").envs = [("", "1")] ∧
    (add_arg (fun _ => false) {} "=1").args = [] ∧
    ("=1".data.headD ' ' = '=') := by
  decide

/-- C3 amended: an argument is recorded as an environment assignment (and
omitted from argv) iff no real argument has been appended yet and it
splits on `=` into exactly two parts whose first (possibly empty) part is
all ASCII alphanumerics or underscores; every other argument is appended
to argv literally, setting the builtin flag when it is the first. -/
theorem add_arg_env_prefix_only (reg : String → Bool) (c : Cmd) (arg : String) :
    (c.args = [] ∧ isEnvAssign arg = true →
      add_arg reg c arg =
        { c with envs := envsInsert c.envs (envName arg) (envVal arg) }) ∧
    (¬(c.args = [] ∧ isEnvAssign arg = true) →
      (add_arg reg c arg).envs = c.envs ∧
      (add_arg reg c arg).args = c.args ++ [arg]) := by
  constructor
  · rintro ⟨hargs, henv⟩
    unfold add_arg
    rw [hargs]
    simp only [List.isEmpty_nil, if_true]
    split
    · simp [envName, envVal]
    · rename_i hcond
      exact absurd henv hcond
  · intro hneg
    rcases hc : c.args with _ | ⟨a, as⟩
    · have henv : ¬(isEnvAssign arg = true) := fun h => hneg ⟨hc, h⟩
      unfold add_arg
      rw [hc]
      simp only [List.isEmpty_nil, if_true]
      split
      · rename_i hcond
        exact absurd hcond henv
      · exact ⟨rfl, rfl⟩
    · unfold add_arg
      rw [hc]
      simp

/-- Witness for the amended C3 on the spec's example: in
`["A=1", "echo", "B=2"]` only the leading `A=1` becomes an assignment,
and `B=2` stays a literal argument. -/
theorem add_arg_env_prefix_only_witness :
    add_arg (fun _ => false) {} "A=1" = { envs := [("A", "1")] } ∧
    (add_arg (fun _ => false) { args := ["echo"] } "B=2").envs = [] ∧
    (add_arg (fun _ => false) { args := ["echo"] } "B=2").args = ["echo", "B=2"] ∧
    add_args (fun _ => false) {} ["A=1", "echo", "B=2"] =
      { in_cmd_map := false, args := ["echo", "B=2"], envs := [("A", "1")] } := by
  refine ⟨?_, ?_, ?_, by decide⟩
  · exact ((add_arg_env_prefix_only (fun _ => false) {} "A=1").1 ⟨rfl, by decide⟩).trans (by decide)
  · exact ((add_arg_env_prefix_only (fun _ => false) { args := ["echo"] } "B=2").2 (by simp)).1
  · exact ((add_arg_env_prefix_only (fun _ => false) { args := ["echo"] } "B=2").2 (by simp)).2

/-- An `Except` result converted to an `Outcome` is never a panic. -/
theorem outcomeOf_ne_panic (r : Except String α) : outcomeOf r ≠ Outcome.panic := by
  cases r <;> simp [outcomeOf]

/-- C9: running a zero-pipeline group for output panics (`pop().unwrap()`
on the empty vector), waiting on a waiter holding zero stage handles
panics in both waiter shapes, spawning a zero-stage pipeline produces
exactly such an empty waiter, and with at least one handle neither waiter
can panic. -/
theorem empty_group_and_waiter_panic (w : World) (st : RunState) (wo : Bool) :
    group_run_fun w [] st = (.panic, st, []) ∧
    waitCmd_wait_result_nolog w [] = (.panic, []) ∧
    waitFun_wait_result_nolog w [] = (.panic, []) ∧
    cmds_spawn w [] st wo = (.ok [], st, []) ∧
    (∀ hs : List (ProcHandle × String), hs ≠ [] →
      (waitCmd_wait_result_nolog w hs).1 ≠ .panic ∧
      (waitFun_wait_result_nolog w hs).1 ≠ .panic) := by
  refine ⟨rfl, rfl, rfl, rfl, ?_⟩
  intro hs hne
  obtain ⟨p, rest, hrev⟩ : ∃ p rest, hs.reverse = p :: rest := by
    rcases h : hs.reverse with _ | ⟨p, rest⟩
    · exact absurd (by simpa using congrArg List.reverse h) hne
    · exact ⟨p, rest, rfl⟩
  constructor
  · unfold waitCmd_wait_result_nolog
    rw [hrev]
    rcases hwc : wait_children_rev w rest with ⟨r, evs⟩
    rcases p with ⟨ph, cmd⟩
    rcases ph with copt | bopt
    · rcases copt with _ | c
      · simp [hwc, outcomeOf_ne_panic]
      · rcases hw : c.waitErr with _ | e
        · by_cases hsucc : c.status.success
          · simp [hw, hsucc, hwc, outcomeOf_ne_panic]
          · simp [hw, hsucc, hwc]
        · simp [hw, hwc]
    · rcases bopt with _ | s
      · simp [hwc, outcomeOf_ne_panic]
      · rcases hso : w.stdoutWriteErr with _ | e
        · simp [hso, hwc, outcomeOf_ne_panic]
        · simp [hso, hwc]
  · unfold waitFun_wait_result_nolog
    rw [hrev]
    rcases hwc : wait_children_rev w rest with ⟨r2, evs2⟩
    rcases p with ⟨ph, cmd⟩
    rcases ph with copt | bopt
    · rcases copt with _ | c
      · rcases r2 with e | u <;> simp [wait_output, hwc]
      · rcases hw : c.waitErr with _ | e
        · by_cases hsucc : c.status.success
          · rcases r2 with e | u <;> simp [wait_output, hw, hsucc, hwc]
          · simp [wait_output, hw, hsucc, hwc]
        · simp [wait_output, hw, hwc]
    · rcases bopt with _ | s
      · rcases r2 with e | u <;> simp [wait_output, hwc]
      · rcases r2 with e | u <;> simp [wait_output, hwc]

/-- Witness for C9's totality conjunct at a one-handle waiter. -/
theorem empty_group_and_waiter_panic_witness :
    (waitCmd_wait_result_nolog wDemo [(ProcHandle.procBuf none, "x")]).1 ≠ Outcome.panic ∧
    (waitFun_wait_result_nolog wDemo [(ProcHandle.procBuf none, "x")]).1 ≠ Outcome.panic :=
  (empty_group_and_waiter_panic wDemo stDemo false).2.2.2.2 _ (by simp)

/-- C10: a handle carrying no output — a consumed buffer, a consumed
child — yields `Ok(vec![])` from `wait_output`, and the output waiter
then returns the empty string after trimming, provided the earlier stages
drain cleanly; a `cd` stage and a builtin stage whose stdout was redirected
to a file produce exactly such a `BufferedOutput(None)` handle. -/
theorem no_output_handle_empty (w : World) (init : List (ProcHandle × String)) (s : String)
    (c : Cmd) (st : RunState) (wo isL : Bool) (prev : Option (ProcHandle × String))
    (f : BuiltinFn) (fo : OpenedFile) (bufs : List Nat × List Nat) :
    wait_output (ProcHandle.procBuf none, s) = (.ok [], (.procBuf none, s), []) ∧
    wait_output (ProcHandle.procChild none, s) = (.ok [], (.procChild none, s), []) ∧
    ((wait_children_rev w init.reverse).1 = .ok () →
      (waitFun_wait_result_nolog w (init ++ [(ProcHandle.procBuf none, s)])).1 = .ok "" ∧
      (waitFun_wait_result_nolog w (init ++ [(ProcHandle.procChild none, s)])).1 = .ok "") ∧
    (arg0 c = "cd" → ∀ d, run_cd_cmd w c = .ok d →
      (cmd_spawn w c st wo true isL prev).res = .ok (.procBuf none, debug_str c)) ∧
    (arg0 c ≠ "cd" → c.in_cmd_map = true → c.stdin_redirect = none →
      w.cmdMap (arg0 c) = some f → f c.args c.envs st.current_dir [] = .ok bufs →
      c.stderr_redirect = none → c.stdout_redirect = some fo → w.writeOk fo.path = true →
      (cmd_spawn w c st wo true isL prev).res = .ok (.procBuf none, debug_str c)) := by
  refine ⟨rfl, rfl, ?_, ?_, ?_⟩
  · intro hdrain
    rcases hwc : wait_children_rev w init.reverse with ⟨r, evs⟩
    rw [hwc] at hdrain
    simp only at hdrain
    subst hdrain
    constructor
    · unfold waitFun_wait_result_nolog
      rw [List.reverse_append]
      simp [wait_output, hwc, trimTrailingNewline, utf8Lossy, utf8LossyAux]
    · unfold waitFun_wait_result_nolog
      rw [List.reverse_append]
      simp [wait_output, hwc, trimTrailingNewline, utf8Lossy, utf8LossyAux]
  · intro hcd d hrun
    unfold cmd_spawn
    simp [hcd, hrun]
  · intro hne hmap hsr hreg hcall hse hso hwr
    rcases bufs with ⟨ob, eb⟩
    unfold cmd_spawn
    have hne' : (arg0 c == "cd") = false := by
      simpa using hne
    simp [builtin_stdin, hne', hmap, hsr, hreg, hcall, hse, hso, hwr]

/-- Witness for C10: the consumed-buffer waiter returns the empty string,
and the `cd /tmp` stage and the redirected builtin stage both yield
`BufferedOutput(None)` handles. -/
theorem no_output_handle_empty_witness :
    (waitFun_wait_result_nolog wDemo [(ProcHandle.procBuf none, "x")]).1 = .ok "" ∧
    (cmd_spawn wDemo cmdCd stDemo false true true none).res =
      .ok (.procBuf none, debug_str cmdCd) ∧
    (cmd_spawn wDemo cmdBuiltinRedir stDemo false true true none).res =
      .ok (.procBuf none, debug_str cmdBuiltinRedir) := by
  have h := no_output_handle_empty wDemo [] "x" cmdCd stDemo false true none builtin_true
    ⟨"o", false, false⟩ ([], [])
  have h2 := no_output_handle_empty wDemo [] "x" cmdBuiltinRedir stDemo false true none
    builtin_true ⟨"o", false, false⟩ ([], [])
  refine ⟨(h.2.2.1 rfl).1, h.2.2.2.1 (by decide) "/tmp" rfl, ?_⟩
  exact h2.2.2.2.2 (by decide) (by decide) rfl rfl rfl rfl rfl (by decide)

/-- C7: in string-output mode the result is the last stage's captured
stdout bytes decoded with lossy UTF-8 and with exactly one trailing
newline removed when present — for a buffered last stage and for an
external last stage that exited zero. -/
theorem run_fun_output_trim (w : World) (init : List (ProcHandle × String)) (s : String)
    (bytes : List Nat) (c : Child)
    (hdrain : (wait_children_rev w init.reverse).1 = .ok ()) :
    (waitFun_wait_result_nolog w (init ++ [(ProcHandle.procBuf (some bytes), s)])).1 =
      .ok (trimTrailingNewline (String.mk (utf8Lossy bytes))) ∧
    (c.waitErr = none → c.status.success = true →
      (waitFun_wait_result_nolog w (init ++ [(ProcHandle.procChild (some c), s)])).1 =
        .ok (trimTrailingNewline (String.mk (utf8Lossy c.out)))) := by
  rcases hwc : wait_children_rev w init.reverse with ⟨r, evs⟩
  rw [hwc] at hdrain
  simp only at hdrain
  subst hdrain
  constructor
  · unfold waitFun_wait_result_nolog
    rw [List.reverse_append]
    simp [wait_output, hwc]
  · intro hw hsucc
    unfold waitFun_wait_result_nolog
    rw [List.reverse_append]
    simp [wait_output, hw, hsucc, hwc]

/-- Witness for C7: the bytes of "rust\n" give "rust", and a successful
child whose stdout is the bytes of "a\n\n" gives "a\n" — exactly one
newline is stripped. -/
theorem run_fun_output_trim_witness :
    (waitFun_wait_result_nolog wDemo
      [(ProcHandle.procBuf (some [0x72, 0x75, 0x73, 0x74, 0x0A]), "e")]).1 = .ok "rust" ∧
    (waitFun_wait_result_nolog wDemo
      [(ProcHandle.procChild (some ⟨none, .exited 0, [0x61, 0x0A, 0x0A], true⟩), "e")]).1 =
      .ok "a\n" := by
  have h := run_fun_output_trim wDemo [] "e" [0x72, 0x75, 0x73, 0x74, 0x0A]
    ⟨none, .exited 0, [0x61, 0x0A, 0x0A], true⟩ rfl
  exact ⟨h.1.trans (by decide), (h.2 rfl rfl).trans (by decide)⟩

/-- `outcomeOf` preserves being an error. -/
theorem outcomeOf_isErr (r : Except String α) : (outcomeOf r).isErr = exceptIsErr r := by
  cases r <;> rfl

/-- Under OS-clean waits, the `wait_children` drain errors exactly when
pipefail is enabled and some handle in the list carries a child that did
not exit zero. -/
theorem wait_children_rev_isErr (w : World) (l : List (ProcHandle × String))
    (h : ∀ p ∈ l, cleanHandle p.1 = true) :
    exceptIsErr (wait_children_rev w l).1 =
      (pipefail w && l.any fun p => handleFails p.1) := by
  induction l with
  | nil => simp [wait_children_rev, exceptIsErr]
  | cons hd tl ih =>
    have hhd : cleanHandle hd.1 = true := h hd (List.mem_cons_self _ _)
    have htl : ∀ p ∈ tl, cleanHandle p.1 = true := fun p hp => h p (List.mem_cons_of_mem _ hp)
    rcases hwc : wait_children_rev w tl with ⟨r, evs⟩
    have ih' : exceptIsErr r = (pipefail w && tl.any fun p => handleFails p.1) := by
      have := ih htl
      rw [hwc] at this
      exact this
    rcases hd with ⟨ph, cmd⟩
    rcases ph with copt | bopt
    · rcases copt with _ | c
      · simp [wait_children_rev, handleFails, hwc, ih']
      · have hw : c.waitErr = none := by
          rcases hwe : c.waitErr with _ | e
          · rfl
          · simp [cleanHandle, hwe] at hhd
        by_cases hpf : pipefail w = true
        · by_cases hsucc : c.status.success = true
          · simp [wait_children_rev, hw, hsucc, hpf, handleFails, hwc, ih']
          · have hs' : c.status.success = false := by simpa using hsucc
            simp [wait_children_rev, hw, hs', hpf, handleFails, exceptIsErr]
        · have hpf' : pipefail w = false := by simpa using hpf
          simp [wait_children_rev, hw, hpf', handleFails, hwc, ih']
    · simp [wait_children_rev, handleFails, hwc, ih']

/-- C1: for both waiter shapes, under OS-clean waits and a clean caller
stdout, the waiter returns an error exactly when the final stage carries
a child that did not exit zero (always fatal), or pipefail is enabled
(`CMD_LIB_PIPEFAIL` not "0") and some non-final stage does. -/
theorem pipefail_gating (w : World) (init : List (ProcHandle × String))
    (last : ProcHandle × String)
    (hclean : ∀ p ∈ init ++ [last], cleanHandle p.1 = true)
    (hout : w.stdoutWriteErr = none) :
    (waitCmd_wait_result_nolog w (init ++ [last])).1.isErr =
      (handleFails last.1 || (pipefail w && init.any fun p => handleFails p.1)) ∧
    (waitFun_wait_result_nolog w (init ++ [last])).1.isErr =
      (handleFails last.1 || (pipefail w && init.any fun p => handleFails p.1)) := by
  have hinit : ∀ p ∈ init.reverse, cleanHandle p.1 = true := fun p hp =>
    hclean p (List.mem_append_left _ (List.mem_reverse.mp hp))
  have hlast : cleanHandle last.1 = true := hclean last (by simp)
  have hwcr := wait_children_rev_isErr w init.reverse hinit
  rcases hwc : wait_children_rev w init.reverse with ⟨r, evs⟩
  rw [hwc] at hwcr
  simp only [List.any_reverse] at hwcr
  rcases last with ⟨ph, cmd⟩
  constructor
  · unfold waitCmd_wait_result_nolog
    rw [List.reverse_append]
    rcases ph with copt | bopt
    · rcases copt with _ | c
      · rcases r with e | u <;>
          simp_all [handleFails, exceptIsErr, outcomeOf, Outcome.isErr, hwc] <;> try exact hwcr
      · have hw : c.waitErr = none := by
          rcases hwe : c.waitErr with _ | e
          · rfl
          · simp [cleanHandle, hwe] at hlast
        by_cases hsucc : c.status.success = true
        · rcases r with e | u <;>
            simp_all [handleFails, exceptIsErr, outcomeOf, Outcome.isErr, hwc, hw, hsucc] <;> try exact hwcr
        · have hs' : c.status.success = false := by simpa using hsucc
          rcases r with e | u <;>
            simp_all [handleFails, exceptIsErr, outcomeOf, Outcome.isErr, hwc, hw, hs'] <;> try exact hwcr
    · rcases bopt with _ | s
      · rcases r with e | u <;>
          simp_all [handleFails, exceptIsErr, outcomeOf, Outcome.isErr, hwc] <;> try exact hwcr
      · rcases r with e | u <;>
          simp_all [handleFails, exceptIsErr, outcomeOf, Outcome.isErr, hwc, hout] <;> try exact hwcr
  · unfold waitFun_wait_result_nolog
    rw [List.reverse_append]
    rcases ph with copt | bopt
    · rcases copt with _ | c
      · rcases r with e | u <;>
          simp_all [wait_output, handleFails, exceptIsErr, Outcome.isErr, hwc] <;> try exact hwcr
      · have hw : c.waitErr = none := by
          rcases hwe : c.waitErr with _ | e
          · rfl
          · simp [cleanHandle, hwe] at hlast
        by_cases hsucc : c.status.success = true
        · rcases r with e | u <;>
            simp_all [wait_output, handleFails, exceptIsErr, Outcome.isErr, hwc, hw, hsucc] <;> try exact hwcr
        · have hs' : c.status.success = false := by simpa using hsucc
          rcases r with e | u <;>
            simp_all [wait_output, handleFails, exceptIsErr, Outcome.isErr, hwc, hw, hs'] <;> try exact hwcr
    · rcases bopt with _ | s
      · rcases r with e | u <;>
          simp_all [wait_output, handleFails, exceptIsErr, Outcome.isErr, hwc] <;> try exact hwcr
      · rcases r with e | u <;>
          simp_all [wait_output, handleFails, exceptIsErr, Outcome.isErr, hwc] <;> try exact hwcr

/-- Witness for C1: with pipefail enabled (variable unset) a failing
non-final child behind a succeeding final child makes both waiters
error. -/
theorem pipefail_gating_witness :
    (waitCmd_wait_result_nolog wDemo
      [(ProcHandle.procChild (some childFail), "a"),
       (ProcHandle.procChild (some childOk), "b")]).1.isErr = true ∧
    (waitFun_wait_result_nolog wDemo
      [(ProcHandle.procChild (some childFail), "a"),
       (ProcHandle.procChild (some childOk), "b")]).1.isErr = true := by
  have h := pipefail_gating wDemo [(ProcHandle.procChild (some childFail), "a")]
    (ProcHandle.procChild (some childOk), "b") (by decide) rfl
  exact ⟨h.1.trans (by decide), h.2.trans (by decide)⟩

/-- C2 counterexample: in the three-stage pipeline whose middle child
exited 1 (pipefail enabled), the status waiter returns an error, yet the
first stage's spawned child is never waited — the drain's early return on
the middle stage's non-zero exit leaves it behind. -/
theorem waiter_drain_counterexample :
    (waitCmd_wait_result_nolog wDemo hsDrain).1.isErr = true ∧
    (ProcHandle.procChild (some childOk), "a") ∈ hsDrain ∧
    Event.waitEv childOk ∉ (waitCmd_wait_result_nolog wDemo hsDrain).2 := by
  decide

/-- Under `drainOk` handles the drain waits every still-present child in
the list. -/
theorem wait_children_rev_waits (w : World) (l : List (ProcHandle × String))
    (h : ∀ p ∈ l, drainOk w p) :
    ∀ c s, (ProcHandle.procChild (some c), s) ∈ l →
      Event.waitEv c ∈ (wait_children_rev w l).2 := by
  induction l with
  | nil => intro c s hmem; simp at hmem
  | cons hd tl ih =>
    intro c s hmem
    have hhd := h hd (List.mem_cons_self _ _)
    have htl : ∀ p ∈ tl, drainOk w p := fun p hp => h p (List.mem_cons_of_mem _ hp)
    rcases hd with ⟨ph, cmd⟩
    rcases hwc : wait_children_rev w tl with ⟨r, evs⟩
    rcases List.mem_cons.mp hmem with heq | hmem'
    · have hph : ProcHandle.procChild (some c) = ph := congrArg Prod.fst heq
      subst hph
      obtain ⟨hwe, hso⟩ := hhd c rfl
      rcases hso with hsucc | hpf
      · simp [wait_children_rev, hwe, hsucc, hwc]
      · simp [wait_children_rev, hwe, hpf, hwc]
    · have hmemtl := ih htl c s hmem'
      rw [hwc] at hmemtl
      rcases ph with copt | bopt
      · rcases copt with _ | c0
        · simpa [wait_children_rev, hwc] using hmemtl
        · obtain ⟨hwe0, hso0⟩ := hhd c0 rfl
          rcases hso0 with hsucc0 | hpf0
          · simp [wait_children_rev, hwe0, hsucc0, hwc, hmemtl]
          · simp [wait_children_rev, hwe0, hpf0, hwc, hmemtl]
      · simpa [wait_children_rev, hwc] using hmemtl

/-- C2 amended: when every non-final child's wait succeeds and each
non-final child either exited zero or pipefail is disabled, both waiters
wait every still-present child of the pipeline before returning (error or
not); without that proviso the drain stops at the first failing non-final
child, scanning from the last stage backwards, and earlier-stage children
are left unwaited (see the counterexample). -/
theorem waiter_drain_amended (w : World) (init : List (ProcHandle × String))
    (last : ProcHandle × String)
    (h : ∀ p ∈ init, drainOk w p) :
    (∀ c s, (ProcHandle.procChild (some c), s) ∈ init ++ [last] →
      Event.waitEv c ∈ (waitCmd_wait_result_nolog w (init ++ [last])).2) ∧
    (∀ c s, (ProcHandle.procChild (some c), s) ∈ init ++ [last] →
      Event.waitEv c ∈ (waitFun_wait_result_nolog w (init ++ [last])).2) := by
  have hrevOk : ∀ p ∈ init.reverse, drainOk w p := fun p hp => h p (List.mem_reverse.mp hp)
  rcases hwc : wait_children_rev w init.reverse with ⟨r, evs⟩
  have hwaits : ∀ c s, (ProcHandle.procChild (some c), s) ∈ init →
      Event.waitEv c ∈ evs := by
    intro c s hmem
    have := wait_children_rev_waits w init.reverse hrevOk c s (List.mem_reverse.mpr hmem)
    rw [hwc] at this
    exact this
  rcases last with ⟨ph, cmd⟩
  constructor
  · intro c s hmem
    unfold waitCmd_wait_result_nolog
    rw [List.reverse_append]
    rcases List.mem_append.mp hmem with hin | hlast
    · have hev := hwaits c s hin
      rcases ph with copt | bopt
      · rcases copt with _ | c0
        · simp [hwc, hev]
        · rcases hwe0 : c0.waitErr with _ | e0
          · by_cases hsucc0 : c0.status.success = true
            · simp [hwc, hwe0, hsucc0, hev]
            · have hs0 : c0.status.success = false := by simpa using hsucc0
              simp [hwc, hwe0, hs0, hev]
          · simp [hwc, hwe0, hev]
      · rcases bopt with _ | sb
        · simp [hwc, hev]
        · rcases hso : w.stdoutWriteErr with _ | e0 <;> simp [hwc, hso, hev]
    · have hph : ph = ProcHandle.procChild (some c) := by
        have := List.mem_singleton.mp hlast
        exact (congrArg Prod.fst this).symm
      subst hph
      rcases hwe0 : c.waitErr with _ | e0
      · by_cases hsucc0 : c.status.success = true
        · simp [hwc, hwe0, hsucc0]
        · have hs0 : c.status.success = false := by simpa using hsucc0
          simp [hwc, hwe0, hs0]
      · simp [hwc, hwe0]
  · intro c s hmem
    unfold waitFun_wait_result_nolog
    rw [List.reverse_append]
    rcases List.mem_append.mp hmem with hin | hlast
    · have hev := hwaits c s hin
      rcases ph with copt | bopt
      · rcases copt with _ | c0
        · rcases r with e | u <;> simp [wait_output, hwc, hev]
        · rcases hwe0 : c0.waitErr with _ | e0
          · by_cases hsucc0 : c0.status.success = true
            · rcases r with e | u <;> simp [wait_output, hwc, hwe0, hsucc0, hev]
            · have hs0 : c0.status.success = false := by simpa using hsucc0
              simp [wait_output, hwc, hwe0, hs0, hev]
          · simp [wait_output, hwc, hwe0, hev]
      · rcases bopt with _ | sb <;> rcases r with e | u <;> simp [wait_output, hwc, hev]
    · have hph : ph = ProcHandle.procChild (some c) := by
        have := List.mem_singleton.mp hlast
        exact (congrArg Prod.fst this).symm
      subst hph
      rcases hwe0 : c.waitErr with _ | e0
      · by_cases hsucc0 : c.status.success = true
        · rcases r with e | u <;> simp [wait_output, hwc, hwe0, hsucc0]
        · have hs0 : c.status.success = false := by simpa using hsucc0
          simp [wait_output, hwc, hwe0, hs0]
      · simp [wait_output, hwc, hwe0]

/-- Witness for the amended C2: a succeeding non-final child and a failing
final child — the waiter errors and both children appear in the wait
events. -/
theorem waiter_drain_amended_witness :
    Event.waitEv childOk ∈ (waitCmd_wait_result_nolog wDemo
      [(ProcHandle.procChild (some childOk), "a"),
       (ProcHandle.procChild (some childFail), "b")]).2 ∧
    Event.waitEv childFail ∈ (waitCmd_wait_result_nolog wDemo
      [(ProcHandle.procChild (some childOk), "a"),
       (ProcHandle.procChild (some childFail), "b")]).2 := by
  have hok : ∀ p ∈ [(ProcHandle.procChild (some childOk), "a")], drainOk wDemo p := by
    intro p hp
    rw [List.mem_singleton.mp hp]
    intro c hc
    obtain rfl : childOk = c := by simpa using hc
    exact ⟨rfl, Or.inl rfl⟩
  have h := waiter_drain_amended wDemo [(ProcHandle.procChild (some childOk), "a")]
    (ProcHandle.procChild (some childFail), "b") hok
  exact ⟨h.1 childOk "a" (by decide), h.1 childFail "b" (by decide)⟩

/-- C4: `StdoutToStderr` duplicates the stage's current stderr redirect
file when one is set and otherwise opens the current stderr target
(initially `/dev/stderr`) in append mode; `StderrToStdout` is symmetric;
consequently the list `[StderrToFile(p, ap), StdoutToStderr]` leaves both
the stderr and the stdout redirect at the file `p` — stdout lands in the
file, not on the inherited stderr. -/
theorem redirect_dup_current_target (w : World) (s : RedirState) (c : Cmd)
    (p : String) (ap : Bool) :
    (∀ f, s.c.stderr_redirect = some f →
      redirect_step w s .stdoutToStderr = (.ok (withStdoutRedirect s f), [])) ∧
    (s.c.stderr_redirect = none → w.canOpen s.stderrFile = true →
      redirect_step w s .stdoutToStderr =
        (.ok (withStdoutRedirect s ⟨s.stderrFile, false, true⟩),
         [.openEv s.stderrFile false true])) ∧
    (∀ f, s.c.stdout_redirect = some f →
      redirect_step w s .stderrToStdout = (.ok (withStderrRedirect s f), [])) ∧
    (s.c.stdout_redirect = none → w.canOpen s.stdoutFile = true →
      redirect_step w s .stderrToStdout =
        (.ok (withStderrRedirect s ⟨s.stdoutFile, false, true⟩),
         [.openEv s.stdoutFile false true])) ∧
    (c.redirects = [.stderrToFile p ap, .stdoutToStderr] → w.canOpen p = true →
      ∃ c', (setup_redirects w c).1 = .ok c' ∧
        c'.stdout_redirect = some ⟨p, false, ap⟩ ∧
        c'.stderr_redirect = some ⟨p, false, ap⟩) := by
  refine ⟨?_, ?_, ?_, ?_, ?_⟩
  · intro f hf
    simp [redirect_step, hf, withStdoutRedirect]
  · intro hnone hopen
    simp [redirect_step, hnone, open_file, hopen, withStdoutRedirect]
  · intro f hf
    simp [redirect_step, hf, withStderrRedirect]
  · intro hnone hopen
    simp [redirect_step, hnone, open_file, hopen, withStderrRedirect]
  · intro hred hopen
    unfold setup_redirects
    rw [hred]
    simp [setup_redirects_loop, redirect_step, open_file, hopen, planStderr, planStdout]

/-- Witness for C4 at `2> err.log 1>&2`: after the redirect planner runs,
the stage's stdout redirect is the `err.log` file. -/
theorem redirect_dup_current_target_witness :
    ∃ c', (setup_redirects wDemo
        { redirects := [.stderrToFile "err.log" false, .stdoutToStderr] }).1 = .ok c' ∧
      c'.stdout_redirect = some ⟨"err.log", false, false⟩ ∧
      c'.stderr_redirect = some ⟨"err.log", false, false⟩ :=
  (redirect_dup_current_target wDemo ⟨"/dev/stdout", "/dev/stderr", {}⟩
    { redirects := [.stderrToFile "err.log" false, .stdoutToStderr] }
    "err.log" false).2.2.2.2 rfl (by decide)

/-- Spawning a stage never changes the caller process's working
directory: the only state field any branch touches is `current_dir`. -/
theorem cmd_spawn_processCwd (w : World) (c : Cmd) (st : RunState)
    (wo isF isL : Bool) (prev : Option (ProcHandle × String)) :
    (cmd_spawn w c st wo isF isL prev).st.processCwd = st.processCwd := by
  unfold cmd_spawn
  repeat' split <;> try rfl
  all_goals dsimp only []
  all_goals repeat' split <;> try rfl

/-- C5: a cd stage (argv[0] = "cd") succeeds iff it has exactly one
operand naming an existing directory the caller may enter; on success the
operand overwrites the group's `current_dir`, the stage handle is
`BufferedOutput(None)`, and in every case the caller process's own
working directory is unchanged; a later external stage installs the
non-empty group directory on its spawn plan. -/
theorem cd_stage_semantics (w : World) (c : Cmd) (st : RunState)
    (wo isF isL : Bool) (prev : Option (ProcHandle × String)) (hcd : arg0 c = "cd") :
    ((∃ d, run_cd_cmd w c = .ok d) ↔
      (c.args.length = 2 ∧ w.isDir (c.args.getD 1 "") = true ∧
        w.canExec (c.args.getD 1 "") = true)) ∧
    (∀ d, run_cd_cmd w c = .ok d →
      d = c.args.getD 1 "" ∧
      cmd_spawn w c st wo isF isL prev =
        ⟨.ok (.procBuf none, debug_str c), { st with current_dir := d }, prev, [.cdEv d]⟩) ∧
    (cmd_spawn w c st wo isF isL prev).st.processCwd = st.processCwd ∧
    (∀ c' plan, c'.in_cmd_map = false → arg0 c' ≠ "cd" → c'.std_cmd = some plan →
      st.current_dir ≠ "" →
      ∃ plan', (cmd_spawn w c' st wo true isL none).events = [.spawnEv plan'] ∧
        plan'.currentDir = some st.current_dir) := by
  have hne : c.args ≠ [] := by
    intro h
    rw [arg0, h] at hcd
    exact absurd hcd (by decide)
  have hpos : 0 < c.args.length := List.length_pos.mpr hne
  have hcd' : (arg0 c == "cd") = true := by simp [hcd]
  refine ⟨⟨?_, ?_⟩, ?_, ?_, ?_⟩
  · rintro ⟨d, hd⟩
    unfold run_cd_cmd at hd
    split at hd
    · exact absurd hd (by simp)
    · split at hd
      · exact absurd hd (by simp)
      · rename_i h1 h2
        split at hd
        · exact absurd hd (by simp)
        · split at hd
          · exact absurd hd (by simp)
          · rename_i h3 h4
            refine ⟨?_, ?_, ?_⟩
            · have e1 : c.args.length ≠ 1 := by simpa using h1
              have e2 : ¬ c.args.length > 2 := by simpa using h2
              omega
            · simpa using h3
            · simpa using h4
  · rintro ⟨hl, hdir, hex⟩
    refine ⟨c.args.getD 1 "", ?_⟩
    have c1 : (c.args.length == 1) = false := by simp [hl]
    have c2 : ¬ c.args.length > 2 := by omega
    have hdir2 : w.isDir (c.args[1]?.getD "") = true := by
      simpa [List.getD_eq_getElem?_getD] using hdir
    have hex2 : w.canExec (c.args[1]?.getD "") = true := by
      simpa [List.getD_eq_getElem?_getD] using hex
    simp [run_cd_cmd, c1, c2, hdir2, hex2]
  · intro d hrun
    have hd : d = c.args.getD 1 "" := by
      unfold run_cd_cmd at hrun
      split at hrun
      · exact absurd hrun (by simp)
      · split at hrun
        · exact absurd hrun (by simp)
        · split at hrun
          · exact absurd hrun (by simp)
          · split at hrun
            · exact absurd hrun (by simp)
            · cases hrun
              rfl
    refine ⟨hd, ?_⟩
    unfold cmd_spawn
    simp [hcd', hrun]
  · exact cmd_spawn_processCwd w c st wo isF isL prev
  · intro c' plan hmap hncd hplan hdir
    have hncd' : (arg0 c' == "cd") = false := by simpa using hncd
    have hdir' : (st.current_dir != "") = true := by simpa using hdir
    unfold cmd_spawn
    simp only [hncd', hmap, hplan, hdir', Bool.false_eq_true, if_false, if_true,
      Bool.not_true, Bool.not_false]
    split
    · split
      · exact ⟨_, rfl, by simp⟩
      · exact ⟨_, rfl, by simp⟩
    · split
      · exact ⟨_, rfl, by simp⟩
      · exact ⟨_, rfl, by simp⟩

/-- Witness for C5: `cd /tmp` succeeds, sets the group directory to
`/tmp` leaving the caller's working directory at `/home/u`, and a later
external stage spawned with group directory `/tmp` carries
`current_dir = /tmp` on its plan. -/
theorem cd_stage_semantics_witness :
    (∃ d, run_cd_cmd wDemo cmdCd = .ok d) ∧
    (cmd_spawn wDemo cmdCd stDemo false true true none).st.current_dir = "/tmp" ∧
    (cmd_spawn wDemo cmdCd stDemo false true true none).st.processCwd = "/home/u" ∧
    (∃ plan', (cmd_spawn wDemo cmdFalseStage ⟨"/tmp", "/home/u"⟩ false true true none).events =
        [.spawnEv plan'] ∧ plan'.currentDir = some "/tmp") := by
  have h := cd_stage_semantics wDemo cmdCd stDemo false true true none (by decide)
  have h2 := cd_stage_semantics wDemo cmdCd ⟨"/tmp", "/home/u"⟩ false true true none (by decide)
  refine ⟨h.1.mpr (by decide), ?_, ?_, ?_⟩
  · rw [(h.2.1 "/tmp" rfl).2]
  · rw [(h.2.1 "/tmp" rfl).2]
    rfl
  · exact h2.2.2.2 cmdFalseStage planFalse (by decide) (by decide) (by decide) (by decide)

/-- C6: in the status group driver, a pipeline error runs the paired
fallback when present — the fallback's error replaces the original and
its success lets the remaining pipelines run — and with no fallback the
original error is returned immediately, independently of any later
pipelines. -/
theorem group_fallback_semantics (w : World) (c f : Cmds)
    (rest : List (Cmds × Option Cmds)) (st st1 : RunState) (e : String)
    (evs1 : List Event)
    (hc : cmds_runCmd w c st = (.err e, st1, evs1)) :
    (∀ e2 st2 evs2, cmds_runCmd w f st1 = (.err e2, st2, evs2) →
      group_runCmd w ((c, some f) :: rest) st = (.err e2, st2, evs1 ++ evs2)) ∧
    (∀ st2 evs2, cmds_runCmd w f st1 = (.ok (), st2, evs2) →
      group_runCmd w ((c, some f) :: rest) st =
        ((group_runCmd w rest st2).1, (group_runCmd w rest st2).2.1,
          evs1 ++ evs2 ++ (group_runCmd w rest st2).2.2)) ∧
    group_runCmd w ((c, none) :: rest) st = (.err e, st1, evs1) := by
  refine ⟨?_, ?_, ?_⟩
  · intro e2 st2 evs2 hf
    simp [group_runCmd, hc, hf]
  · intro st2 evs2 hf
    rcases hrest : group_runCmd w rest st2 with ⟨r, st3, evs3⟩
    simp [group_runCmd, hc, hf, hrest]
  · simp [group_runCmd, hc]

/-- Witness for C6 on concrete groups: `false` with a failing fallback
yields the fallback's error; `false` with the succeeding empty builtin as
fallback makes the group succeed; `false` without fallback aborts the
group before the second pipeline runs (its events never appear). -/
theorem group_fallback_semantics_witness :
    group_runCmd wDemo [(cmdsFalse, some cmdsFalse)] stDemo =
      (.err errFalse, stDemo, evsFalse ++ evsFalse) ∧
    group_runCmd wDemo [(cmdsFalse, some cmdsTrue)] stDemo =
      (.ok (), stDemo, evsFalse ++ evsTrue) ∧
    group_runCmd wDemo [(cmdsFalse, none), (cmdsTrue, none)] stDemo =
      (.err errFalse, stDemo, evsFalse) := by
  have h := group_fallback_semantics wDemo cmdsFalse cmdsFalse [] stDemo stDemo errFalse
    evsFalse (by decide)
  have h2 := group_fallback_semantics wDemo cmdsFalse cmdsTrue [] stDemo stDemo errFalse
    evsFalse (by decide)
  have h3 := group_fallback_semantics wDemo cmdsFalse cmdsFalse
    [(cmdsTrue, none)] stDemo stDemo errFalse evsFalse (by decide)
  refine ⟨h.1 errFalse stDemo evsFalse (by decide), ?_, h3.2.2⟩
  exact (h2.2.1 stDemo evsTrue (by decide)).trans (by decide)

/-- `wait_output` emits only wait events, never file opens. -/
theorem wait_output_events_noopen (h : ProcHandle × String) :
    ∀ ev ∈ (wait_output h).2.2, isOpenEv ev = false := by
  rcases h with ⟨ph, cmd⟩
  rcases ph with copt | bopt
  · rcases copt with _ | c
    · simp [wait_output]
    · rcases hw : c.waitErr with _ | e
      · by_cases hs : c.status.success = true
        · simp [wait_output, hw, hs, isOpenEv]
        · have hs' : c.status.success = false := by simpa using hs
          simp [wait_output, hw, hs', isOpenEv]
      · simp [wait_output, hw, isOpenEv]
  · rcases bopt with _ | s <;> simp [wait_output]

/-- `builtin_stdin` emits only wait events, never file opens. -/
theorem builtin_stdin_events_noopen (w : World) (c : Cmd) (isF : Bool)
    (prev : Option (ProcHandle × String)) :
    ∀ ev ∈ (builtin_stdin w c isF prev).2.2, isOpenEv ev = false := by
  unfold builtin_stdin
  by_cases hf : isF = true
  · simp only [hf, if_true]
    rcases c.stdin_redirect <;> simp
  · have hf' : isF = false := by simpa using hf
    simp only [hf', Bool.false_eq_true, if_false]
    rcases prev with _ | ph
    · simp
    · rcases hwo : wait_output ph with ⟨r, ph', evs⟩
      have := wait_output_events_noopen ph
      rw [hwo] at this
      simpa [hwo] using this

/-- Appending the builtin-invocation event preserves the absence of open
events. -/
theorem noopen_append_builtin (evs : List Event) (args : List String)
    (h : ∀ ev ∈ evs, isOpenEv ev = false) :
    ∀ ev ∈ evs ++ [Event.builtinEv args], isOpenEv ev = false := by
  intro ev hev
  rcases List.mem_append.mp hev with h1 | h1
  · exact h ev h1
  · rw [List.mem_singleton.mp h1]
    rfl

/-- Spawning a stage emits no file-open events: only spawn, builtin, cd,
and wait events. -/
theorem cmd_spawn_events_noopen (w : World) (c : Cmd) (st : RunState)
    (wo isF isL : Bool) (prev : Option (ProcHandle × String)) :
    ∀ ev ∈ (cmd_spawn w c st wo isF isL prev).events, isOpenEv ev = false := by
  unfold cmd_spawn
  by_cases hcd : (arg0 c == "cd") = true
  · simp only [hcd, if_true]
    split <;> simp [isOpenEv]
  · have hcd' : (arg0 c == "cd") = false := by simpa using hcd
    simp only [hcd', Bool.false_eq_true, if_false]
    by_cases hmap : c.in_cmd_map = true
    · simp only [hmap, if_true]
      rcases hin : builtin_stdin w c isF prev with ⟨o, pA, evs⟩
      have hevs : ∀ ev ∈ evs, isOpenEv ev = false := by
        have := builtin_stdin_events_noopen w c isF prev
        rw [hin] at this
        exact this
      rcases o with inbuf | e | _
      · rcases hreg : w.cmdMap (arg0 c) with _ | f
        · simp only [hreg]
          simpa using hevs
        · simp only [hreg]
          rcases hres : f c.args c.envs st.current_dir inbuf with e | ⟨ob, eb⟩
          · simp only [hres]
            exact noopen_append_builtin evs c.args hevs
          · simp only [hres]
            rcases hse : c.stderr_redirect with _ | fe
            · simp only [hse]
              rcases hso : c.stdout_redirect with _ | fo
              · simp only [hso]
                exact noopen_append_builtin evs c.args hevs
              · simp only [hso]
                by_cases hwr : w.writeOk fo.path = true
                · simp only [hwr, if_true]
                  exact noopen_append_builtin evs c.args hevs
                · have hwr' : w.writeOk fo.path = false := by simpa using hwr
                  simp only [hwr', Bool.false_eq_true, if_false]
                  exact noopen_append_builtin evs c.args hevs
            · simp only [hse]
              by_cases hwr : w.writeOk fe.path = true
              · simp only [hwr, if_true]
                rcases hso : c.stdout_redirect with _ | fo
                · simp only [hso]
                  exact noopen_append_builtin evs c.args hevs
                · simp only [hso]
                  by_cases hwr2 : w.writeOk fo.path = true
                  · simp only [hwr2, if_true]
                    exact noopen_append_builtin evs c.args hevs
                  · have hwr2' : w.writeOk fo.path = false := by simpa using hwr2
                    simp only [hwr2', Bool.false_eq_true, if_false]
                    exact noopen_append_builtin evs c.args hevs
              · have hwr' : w.writeOk fe.path = false := by simpa using hwr
                simp only [hwr', Bool.false_eq_true, if_false]
                exact noopen_append_builtin evs c.args hevs
      · simpa using hevs
      · simpa using hevs
    · have hmap' : c.in_cmd_map = false := by simpa using hmap
      simp only [hmap', Bool.false_eq_true, if_false]
      rcases hsc : c.std_cmd with _ | plan
      · simp [hsc]
      · simp only [hsc]
        repeat' split <;> try simp [isOpenEv]

/-- Every event of one redirect-planner step is a file-open attempt. -/
theorem redirect_step_events_open (w : World) (s : RedirState) (r : Redirect) :
    ∀ ev ∈ (redirect_step w s r).2, isOpenEv ev = true := by
  rcases r with p | _ | _ | ⟨p, ap⟩ | ⟨p, ap⟩ <;>
    (unfold redirect_step
     repeat' split <;> try simp [isOpenEv])

/-- Every event of the redirect-planner loop is a file-open attempt. -/
theorem setup_redirects_loop_events_open (w : World) (rs : List Redirect) :
    ∀ (s : RedirState), ∀ ev ∈ (setup_redirects_loop w s rs).2, isOpenEv ev = true := by
  induction rs with
  | nil =>
    intro s ev hev
    simp [setup_redirects_loop] at hev
  | cons r rest ih =>
    intro s ev hev
    unfold setup_redirects_loop at hev
    rcases hstep : redirect_step w s r with ⟨res, evs⟩
    rw [hstep] at hev
    have hstepOpen : ∀ ev ∈ evs, isOpenEv ev = true := by
      have := redirect_step_events_open w s r
      rw [hstep] at this
      exact this
    rcases res with e | s'
    · simp at hev
      exact hstepOpen ev hev
    · dsimp only at hev
      rcases hloop : setup_redirects_loop w s' rest with ⟨res2, evs2⟩
      rw [hloop] at hev
      simp at hev
      rcases hev with h1 | h1
      · exact hstepOpen ev h1
      · have := ih s'
        rw [hloop] at this
        exact this ev h1

/-- Every event of the redirect-setup phase over all stages is a
file-open attempt. -/
theorem setup_all_events_open (w : World) (cs : List Cmd) :
    ∀ ev ∈ (setup_all w cs).2, isOpenEv ev = true := by
  induction cs with
  | nil =>
    intro ev hev
    simp [setup_all] at hev
  | cons c rest ih =>
    intro ev hev
    unfold setup_all at hev
    rcases hsr : setup_redirects w c with ⟨res, evs⟩
    rw [hsr] at hev
    have hopen : ∀ ev ∈ evs, isOpenEv ev = true := by
      have h2 := setup_redirects_loop_events_open w c.redirects ⟨"/dev/stdout", "/dev/stderr", c⟩
      unfold setup_redirects at hsr
      rw [hsr] at h2
      exact h2
    rcases res with e | c'
    · simp at hev
      exact hopen ev hev
    · rcases hsa : setup_all w rest with ⟨res2, evs2⟩
      rw [hsa] at hev
      rw [hsa] at ih
      rcases res2 with e2 | cs2 <;>
        (simp at hev
         rcases hev with h1 | h1
         · exact hopen ev h1
         · exact ih ev h1)

/-- The stage-walking loop emits no file-open events. -/
theorem spawn_loop_events_noopen (w : World) (wo : Bool) (cs : List Cmd) :
    ∀ (st : RunState) (isF : Bool) (children : List (ProcHandle × String)),
      ∀ ev ∈ (spawn_loop w wo cs st isF children).2.2, isOpenEv ev = false := by
  induction cs with
  | nil =>
    intro st isF children ev hev
    simp [spawn_loop] at hev
  | cons c rest ih =>
    intro st isF children ev hev
    unfold spawn_loop at hev
    rcases hr : cmd_spawn w c st wo isF rest.isEmpty children.getLast? with ⟨res, st', pA, evs⟩
    rw [hr] at hev
    have hnoopen : ∀ ev ∈ evs, isOpenEv ev = false := by
      have := cmd_spawn_events_noopen w c st wo isF rest.isEmpty children.getLast?
      rw [hr] at this
      exact this
    rcases res with h | e | _
    · dsimp only at hev
      rcases pA with _ | ph
      · rcases hsl : spawn_loop w wo rest st' false (children ++ [h]) with ⟨res2, st2, evs2⟩
        rw [hsl] at hev
        simp at hev
        rcases hev with h1 | h1
        · exact hnoopen ev h1
        · have := ih st' false (children ++ [h])
          rw [hsl] at this
          exact this ev h1
      · rcases hsl : spawn_loop w wo rest st' false (children.dropLast ++ [ph] ++ [h]) with
          ⟨res2, st2, evs2⟩
        rw [hsl] at hev
        simp at hev
        rcases hev with h1 | h1
        · exact hnoopen ev h1
        · have := ih st' false (children.dropLast ++ [ph] ++ [h])
          rw [hsl] at this
          exact this ev h1
    · simp at hev
      exact hnoopen ev hev
    · simp at hev
      exact hnoopen ev hev

/-- C8: every pipeline run splits its events into a first block of
file-open attempts (the redirect-setup phase over all stages) followed by
a block with no opens (the spawn phase); when the setup phase fails, the
pipeline aborts with that error, the only events are open attempts, and
no stage has been executed — no spawn, builtin, or cd event occurs. -/
theorem redirects_open_before_spawn (w : World) (cs : List Cmd) (st : RunState) (wo : Bool) :
    (∃ evs1 evs2, (cmds_spawn w cs st wo).2.2 = evs1 ++ evs2 ∧
      (∀ ev ∈ evs1, isOpenEv ev = true) ∧ (∀ ev ∈ evs2, isOpenEv ev = false)) ∧
    (∀ e evs, setup_all w cs = (.error e, evs) →
      cmds_spawn w cs st wo = (.err e, st, evs) ∧
      (∀ ev ∈ evs, isOpenEv ev = true) ∧ (∀ ev ∈ evs, isStageEv ev = false)) := by
  constructor
  · rcases hsa : setup_all w cs with ⟨res, evsA⟩
    have hopenA : ∀ ev ∈ evsA, isOpenEv ev = true := by
      have := setup_all_events_open w cs
      rw [hsa] at this
      exact this
    rcases res with e | cs'
    · refine ⟨evsA, [], by simp [cmds_spawn, hsa], hopenA, by simp⟩
    · rcases hsl : spawn_loop w wo cs' st true [] with ⟨r2, st2, evsB⟩
      refine ⟨evsA, evsB, by simp [cmds_spawn, hsa, hsl], hopenA, ?_⟩
      have := spawn_loop_events_noopen w wo cs' st true []
      rw [hsl] at this
      exact this
  · intro e evs hsa
    have hopen : ∀ ev ∈ evs, isOpenEv ev = true := by
      have := setup_all_events_open w cs
      rw [hsa] at this
      exact this
    refine ⟨by simp [cmds_spawn, hsa], hopen, ?_⟩
    intro ev hev
    have := hopen ev hev
    rcases ev <;> simp_all [isOpenEv, isStageEv]

/-- Witness for C8: a one-stage pipeline whose stdin redirect cannot be
opened aborts before anything is spawned, with only the open attempt in
its trace. -/
theorem redirects_open_before_spawn_witness :
    cmds_spawn wDemo [cmdBadRedir] stDemo false =
      (.err "open bad failed", stDemo, [.openEv "bad" true false]) ∧
    (∀ ev ∈ [Event.openEv "bad" true false], isStageEv ev = false) := by
  have h := (redirects_open_before_spawn wDemo [cmdBadRedir] stDemo false).2
    "open bad failed" [.openEv "bad" true false] rfl
  exact ⟨h.1, h.2.2⟩
